import Mathlib

/-!
Shallow embedding of `src/backend/backend.py` (Waydroid-Helper daemon) and
proofs about it.  Each Python class becomes a namespace; each method becomes
a Lean function over explicit state.  SQLite tables are modelled as lists of
rows; machine floats are modelled as rationals; fallible external actions
(subprocess calls, file reads, archive commands) are modelled by explicit
outcome values carried in an environment record, and Python `try/except`
blocks become case analysis on those outcomes.
-/

/-- Characters of `pat` occur as a prefix of `s` (model of Python
`str.startswith` on the underlying character lists). -/
def startsWithChars : List Char → List Char → Bool
  | [], _ => true
  | _ :: _, [] => false
  | p :: ps, c :: cs => p == c && startsWithChars ps cs

/-- Characters of `pat` occur contiguously inside `s` (model of Python's
substring test `pat in s` on the underlying character lists). -/
def charListHas (pat : List Char) : List Char → Bool
  | [] => pat.isEmpty
  | c :: rest => startsWithChars pat (c :: rest) || charListHas pat rest

/-- Python `pat in s` for strings. -/
def strContains (pat s : String) : Bool := charListHas pat.toList s.toList

/-- Python `line.startswith(pat)`. -/
def strStarts (pat s : String) : Bool := startsWithChars pat.toList s.toList

/-- Python `name.endswith(suf)`. -/
def strEnds (suf s : String) : Bool :=
  startsWithChars suf.toList.reverse s.toList.reverse

/-- Python `s.lower()`. -/
def lowerStr (s : String) : String := String.mk (s.toList.map Char.toLower)

namespace WaydroidDBHandler

/-- One row of the `resource_logs` table.  `rowid` is SQLite's implicit
integer row identifier, used by the pruning `DELETE` in
`log_resource_usage`. -/
structure ResourceRow where
  rowid : Nat
  timestamp : Nat
  cpu_usage : Rat
  ram_usage : Rat
  storage_usage : Rat
deriving DecidableEq, Repr

/-- The comparison `ORDER BY timestamp DESC` used by the pruning query. -/
def tsDesc (a b : ResourceRow) : Prop := b.timestamp ≤ a.timestamp

instance : DecidableRel tsDesc := fun a b => Nat.decLe b.timestamp a.timestamp

instance : IsTotal ResourceRow tsDesc :=
  ⟨fun a b => Nat.le_total b.timestamp a.timestamp⟩

instance : IsTrans ResourceRow tsDesc :=
  ⟨fun _ _ _ h1 h2 => Nat.le_trans h2 h1⟩

/-- Rowids surviving `SELECT rowid FROM resource_logs ORDER BY timestamp
DESC LIMIT 100`. -/
def keptRowids (rows : List ResourceRow) : List Nat :=
  ((List.insertionSort tsDesc rows).take 100).map (fun r => r.rowid)

/-- Effect of `DELETE FROM resource_logs WHERE rowid NOT IN (...)`. -/
def pruneLogs (rows : List ResourceRow) : List ResourceRow :=
  rows.filter (fun r => r.rowid ∈ keptRowids rows)

/-- SQLite's fresh rowid for an insert: one more than the largest in use. -/
def nextRowid (rows : List ResourceRow) : Nat :=
  rows.foldr (fun r m => max r.rowid m) 0 + 1

/-- `WaydroidDBHandler.log_resource_usage`: insert one row timestamped
`now = int(time.time())`, then prune to the 100 newest by timestamp. -/
def log_resource_usage (now : Nat) (cpu ram storage : Rat)
    (rows : List ResourceRow) : List ResourceRow :=
  pruneLogs (rows ++ [⟨nextRowid rows, now, cpu, ram, storage⟩])

/-- `WaydroidDBHandler.get_setting`: `SELECT value FROM settings WHERE
key = ?`, `None` when absent. -/
def get_setting (key : String) (s : List (String × String)) : Option String :=
  (s.find? (fun r => r.1 == key)).map (fun r => r.2)

/-- `WaydroidDBHandler.set_setting`: `INSERT OR REPLACE INTO settings`,
i.e. delete any row with this primary key and insert the new row. -/
def set_setting (key value : String) (s : List (String × String)) :
    List (String × String) :=
  s.filter (fun r => !(r.1 == key)) ++ [(key, value)]

/-- One row of the `app_visibility` table (`visible` is stored as 1/0). -/
structure VisRow where
  package_name : String
  app_name : String
  visible : Bool
deriving DecidableEq, Repr

/-- `WaydroidDBHandler.set_app_visibility`: `INSERT OR REPLACE INTO
app_visibility` keyed on `package_name`. -/
def db_set_app_visibility (pkg name : String) (visible : Bool)
    (vis : List VisRow) : List VisRow :=
  vis.filter (fun r => !(r.package_name == pkg)) ++ [⟨pkg, name, visible⟩]

/-- `SELECT app_name, visible FROM app_visibility WHERE package_name = ?`
(the row read back by `get_app_visibility`). -/
def visLookup (pkg : String) (vis : List VisRow) : Option (String × Bool) :=
  (vis.find? (fun r => r.package_name == pkg)).map (fun r => (r.app_name, r.visible))

/-- The whole SQLite file: each table is `none` while the `CREATE TABLE`
for it has not run yet. -/
structure RawDB where
  settings : Option (List (String × String))
  app_visibility : Option (List VisRow)
  resource_logs : Option (List ResourceRow)
deriving DecidableEq

/-- A freshly created, schema-less database file. -/
def emptyRawDB : RawDB := ⟨none, none, none⟩

/-- `sqlite3.connect`: opens the existing file or creates an empty one. -/
def connectDB (db : Option RawDB) : RawDB := db.getD emptyRawDB

/-- `CREATE TABLE IF NOT EXISTS`: an absent table becomes empty, an
existing table is left as it is. -/
def createTableIfMissing {α : Type} (t : Option (List α)) : List α := t.getD []

/-- `INSERT OR IGNORE INTO settings`: a row is added only when no row with
this primary key exists. -/
def insert_or_ignore (key value : String) (s : List (String × String)) :
    List (String × String) :=
  if s.any (fun r => r.1 == key) then s else s ++ [(key, value)]

/-- The `default_settings` dict of `_ensure_db_exists`
(`last_update_check` is `str(int(time.time()))`). -/
def default_settings (now : Nat) : List (String × String) :=
  [("auto_start", "0"), ("auto_update", "0"),
   ("last_update_check", toString now), ("last_backup_time", "0")]

/-- `WaydroidDBHandler._ensure_db_exists`: connect (creating the file if
needed), create the three tables if missing, seed absent default settings. -/
def ensure_db_exists (now : Nat) (db : Option RawDB) : RawDB :=
  let d := connectDB db
  { settings := some ((default_settings now).foldl
      (fun s kv => insert_or_ignore kv.1 kv.2 s)
      (createTableIfMissing d.settings)),
    app_visibility := some (createTableIfMissing d.app_visibility),
    resource_logs := some (createTableIfMissing d.resource_logs) }

end WaydroidDBHandler

namespace WaydroidController

/-- Outcome of one external `waydroid ...` subprocess invocation:
normal exit with captured output, non-zero exit
(`subprocess.CalledProcessError`), or the binary being absent
(`FileNotFoundError`). -/
inductive ProcOutcome where
  | ok (out : String)
  | exitNonzero
  | binMissing
deriving DecidableEq

/-- `WaydroidController.is_container_running`: `'RUNNING' in output` of
`waydroid status`; `CalledProcessError` and `FileNotFoundError` are both
caught and reported as `False`. -/
def is_container_running : ProcOutcome → Bool
  | .ok out => strContains "RUNNING" out
  | .exitNonzero => false
  | .binMissing => false

/-- `WaydroidController.start_container`: `subprocess.Popen(['waydroid',
'session', 'start'])` spawns without waiting.  `Popen` raises (and the
`except` returns `False`) only when the binary is missing; the spawned
command's exit status is never observed, so a later non-zero exit still
yields `True`. -/
def start_container : ProcOutcome → Bool
  | .binMissing => false
  | _ => true

/-- `WaydroidController.stop_container`: `subprocess.run(..., check=True)`;
any raised exception is caught and turned into `False`. -/
def stop_container : ProcOutcome → Bool
  | .ok _ => true
  | _ => false

/-- `WaydroidController.freeze_container`: same shape as `stop_container`. -/
def freeze_container : ProcOutcome → Bool
  | .ok _ => true
  | _ => false

/-- `WaydroidController.unfreeze_container`: same shape as
`stop_container`. -/
def unfreeze_container : ProcOutcome → Bool
  | .ok _ => true
  | _ => false

/-- One OS process as seen through `psutil.process_iter(['pid', 'name',
'cmdline'])`.  `cpuPercent`/`rssBytes` are `none` when the corresponding
per-process probe raises (swallowed by the inner bare `except`). -/
structure ProcInfo where
  name : String
  cmdline : List String
  cpuPercent : Option Rat
  rssBytes : Option Rat
deriving DecidableEq

/-- The waydroid-process classifier of `get_container_resource_usage`:
`'waydroid' in proc.info['name'].lower() or any('waydroid' in cmd.lower()
for cmd in proc.info['cmdline'] if cmd)`. -/
def matchedProc (p : ProcInfo) : Bool :=
  strContains "waydroid" (lowerStr p.name) ||
    (p.cmdline.filter (fun c => !(c == ""))).any
      (fun c => strContains "waydroid" (lowerStr c))

/-- Environment of one `get_container_resource_usage` call.  `procIterOk`
is false when `psutil.process_iter` itself raises (caught by the outer
`except`, leaving all three figures at `0.0`); `dirSizeBytes` is the result
of `_get_dir_size`, `none` when the directory walk raises (caught by the
same outer `except`, after `cpu_usage` and `ram_usage` were already
assigned). -/
structure ResourceEnv where
  procIterOk : Bool
  procs : List ProcInfo
  cpuCount : Rat
  dataPathExists : Bool
  dirSizeBytes : Option Rat
deriving DecidableEq

/-- Result of `get_container_resource_usage`: the updated `resource_logs`
table plus the returned usage dictionary. -/
structure UsageResult where
  logs : List WaydroidDBHandler.ResourceRow
  cpu_usage : Rat
  ram_usage : Rat
  storage_usage : Rat
deriving DecidableEq

/-- `WaydroidController.get_container_resource_usage`: sum CPU percent and
RSS over matched processes (per-process failures skipped), normalize, walk
the data directory, and — after the `try/except`, unconditionally — call
`log_resource_usage` with whatever values were computed before any
failure. -/
def get_container_resource_usage (env : ResourceEnv)
    (logs : List WaydroidDBHandler.ResourceRow) (now : Nat) : UsageResult :=
  let sampled : Rat × Rat × Rat :=
    if env.procIterOk then
      let ws := env.procs.filter matchedProc
      let total_cpu := (ws.map (fun p => p.cpuPercent.getD 0)).sum
      let cpu := if 0 < total_cpu then total_cpu / env.cpuCount else 0
      let ram := ((ws.map (fun p => p.rssBytes.getD 0)).sum) / (1024 * 1024)
      if env.dataPathExists then
        match env.dirSizeBytes with
        | some b => (cpu, ram, b / (1024 * 1024 * 1024))
        | none => (cpu, ram, 0)
      else (cpu, ram, 0)
    else (0, 0, 0)
  { logs := WaydroidDBHandler.log_resource_usage now
      sampled.1 sampled.2.1 sampled.2.2 logs,
    cpu_usage := sampled.1,
    ram_usage := sampled.2.1,
    storage_usage := sampled.2.2 }

/-- Content of one file in the applications directory: readable lines, or
`broken` when opening/reading it raises. -/
inductive FileContent where
  | good (lines : List String)
  | broken
deriving DecidableEq

/-- One file of `WAYDROID_APPS_PATH`. -/
structure DesktopFile where
  name : String
  content : FileContent
deriving DecidableEq

/-- `file_name.endswith('.desktop')`. -/
def isDesktopFile (n : String) : Bool := strEnds ".desktop" n

/-- The line written by `set_app_visibility`:
`f'NoDisplay={str(not visible).lower()}'`. -/
def noDisplayLine (visible : Bool) : String :=
  "NoDisplay=" ++ (if visible then "false" else "true")

/-- `line.startswith('NoDisplay=')`. -/
def isNoDisplayLine (l : String) : Bool := strStarts "NoDisplay=" l

/-- The rewrite loop of `set_app_visibility`: every `NoDisplay=` line is
replaced by the new flag line, and the flag line is appended when no such
line existed. -/
def rewriteLines (visible : Bool) (lines : List String) : List String :=
  let replaced := lines.map (fun l =>
    if isNoDisplayLine l then noDisplayLine visible else l)
  if lines.any isNoDisplayLine then replaced else replaced ++ [noDisplayLine visible]

/-- The whole text of a file as read by `f.read()`. -/
def fileText (lines : List String) : String := String.intercalate "\n" lines

/-- `package_name in content`. -/
def mentionsPkg (pkg : String) (lines : List String) : Bool :=
  strContains pkg (fileText lines)

/-- The discovery loop of `set_app_visibility`: read every `.desktop` file
(raising, hence `.error`, at the first unreadable one) and collect the
names of those whose content mentions the package. -/
def scanDesktopFiles (pkg : String) : List DesktopFile → Except Unit (List String)
  | [] => .ok []
  | f :: fs =>
    if isDesktopFile f.name then
      match f.content with
      | .broken => .error ()
      | .good lines =>
        match scanDesktopFiles pkg fs with
        | .error e => .error e
        | .ok rest => .ok (if mentionsPkg pkg lines then f.name :: rest else rest)
    else scanDesktopFiles pkg fs

/-- The update loop of `set_app_visibility`: rewrite every selected file. -/
def updateFiles (visible : Bool) (selected : List String)
    (files : List DesktopFile) : List DesktopFile :=
  files.map (fun f =>
    if f.name ∈ selected then
      { f with content := match f.content with
          | .good ls => FileContent.good (rewriteLines visible ls)
          | .broken => FileContent.broken }
    else f)

/-- Result of `WaydroidController.set_app_visibility`: updated
`app_visibility` table, updated applications directory (`none` when
`WAYDROID_APPS_PATH` does not exist), and the returned boolean. -/
structure VisResult where
  vis : List WaydroidDBHandler.VisRow
  apps : Option (List DesktopFile)
  ok : Bool
deriving DecidableEq

/-- `WaydroidController.set_app_visibility`: store the flag in the
database, then locate and rewrite every desktop entry mentioning the
package; any exception in the file phase is caught and returned as `False`
(the database write is not rolled back). -/
def set_app_visibility (pkg appName : String) (visible : Bool)
    (vis : List WaydroidDBHandler.VisRow)
    (apps : Option (List DesktopFile)) : VisResult :=
  let vis' := WaydroidDBHandler.db_set_app_visibility pkg appName visible vis
  match apps with
  | none => { vis := vis', apps := none, ok := true }
  | some files =>
    match scanDesktopFiles pkg files with
    | .error _ => { vis := vis', apps := some files, ok := false }
    | .ok selected =>
      { vis := vis', apps := some (updateFiles visible selected files), ok := true }

/-- Environment of one `backup_data` call: container status at entry,
existence of the two source directories, and exit status of the two `tar`
invocations (`check=True`, so a non-zero exit raises into the outer
`except`). -/
structure BackupEnv where
  containerRunning : Bool
  dataPathExists : Bool
  appsPathExists : Bool
  dataArchiveOk : Bool
  appsArchiveOk : Bool
  now : Nat
deriving DecidableEq

/-- Observable trace of one `backup_data` call. -/
structure BackupTrace where
  result : Bool
  stopAttempted : Bool
  startAttempted : Bool
  dataArchived : Bool
  appsArchived : Bool
  settings : List (String × String)
deriving DecidableEq

/-- `WaydroidController.backup_data`: stop the container when it was
running, archive the data directory then the app entries (each raising on
a failed `tar`), record `last_backup_time`, and restart the container —
the restart sits after the archive steps inside the same `try`, so any
archive failure jumps to `except` and returns `False` without restarting. -/
def backup_data (env : BackupEnv) (settings : List (String × String)) :
    BackupTrace :=
  let was_running := env.containerRunning
  if env.dataPathExists && !env.dataArchiveOk then
    ⟨false, was_running, false, false, false, settings⟩
  else if env.appsPathExists && !env.appsArchiveOk then
    ⟨false, was_running, false, env.dataPathExists, false, settings⟩
  else
    ⟨true, was_running, was_running, env.dataPathExists, env.appsPathExists,
      WaydroidDBHandler.set_setting "last_backup_time" (toString env.now) settings⟩

/-- One directory under `BACKUP_PATH` as seen by `restore_data`. -/
structure BackupDir where
  name : String
  mtime : Nat
  hasDataArchive : Bool
  hasAppsArchive : Bool
deriving DecidableEq

/-- Environment of one `restore_data` call with no explicit directory:
`backupRoot = none` models `BACKUP_PATH` itself missing (`os.listdir`
raises, caught by the outer `except`). -/
structure RestoreEnv where
  backupRoot : Option (List BackupDir)
  containerRunning : Bool
  dataExtractOk : Bool
  appsExtractOk : Bool
deriving DecidableEq

/-- Observable trace of one `restore_data` call. -/
structure RestoreTrace where
  result : Bool
  stopAttempted : Bool
  startAttempted : Bool
  extractedData : Bool
  extractedApps : Bool
  selected : Option String
deriving DecidableEq

/-- Python `max(backup_dirs, key=os.path.getmtime)`: the first directory
with the greatest modification time. -/
def maxByMtime (best : BackupDir) : List BackupDir → BackupDir
  | [] => best
  | d :: ds => maxByMtime (if best.mtime < d.mtime then d else best) ds

/-- `WaydroidController.restore_data` called with `backup_dir=None`:
list `BACKUP_PATH` (failure or emptiness returns `False` untouched), pick
the most recently modified directory, fail when it holds neither archive,
otherwise stop-if-running, extract, and restart-if-was-running (with the
restart again gated inside the `try`). -/
def restore_data_latest (env : RestoreEnv) : RestoreTrace :=
  match env.backupRoot with
  | none => ⟨false, false, false, false, false, none⟩
  | some [] => ⟨false, false, false, false, false, none⟩
  | some (d :: ds) =>
    let sel := maxByMtime d ds
    if !sel.hasDataArchive && !sel.hasAppsArchive then
      ⟨false, false, false, false, false, some sel.name⟩
    else if sel.hasDataArchive && !env.dataExtractOk then
      ⟨false, env.containerRunning, false, false, false, some sel.name⟩
    else if sel.hasAppsArchive && !env.appsExtractOk then
      ⟨false, env.containerRunning, false, sel.hasDataArchive, false, some sel.name⟩
    else
      ⟨true, env.containerRunning, env.containerRunning,
        sel.hasDataArchive, sel.hasAppsArchive, some sel.name⟩

end WaydroidController

namespace WaydroidDBusService

/-- Payload of one `ResourceUsageChanged` bus signal. -/
structure MonitorEvent where
  cpu : Rat
  ram : Rat
  storage : Rat
deriving DecidableEq

/-- The `time.sleep(3)` at the end of each monitor-loop iteration. -/
def monitorIntervalSeconds : Nat := 3

/-- One iteration of `WaydroidDBusService._resource_monitor_loop`:
when `is_container_running()` reported true, sample-and-persist once and
emit one `ResourceUsageChanged` signal; otherwise do nothing. -/
def monitor_tick (running : Bool) (env : WaydroidController.ResourceEnv)
    (logs : List WaydroidDBHandler.ResourceRow) (now : Nat) :
    List WaydroidDBHandler.ResourceRow × List MonitorEvent :=
  if running then
    let u := WaydroidController.get_container_resource_usage env logs now
    (u.logs, [⟨u.cpu_usage, u.ram_usage, u.storage_usage⟩])
  else (logs, [])

/-- Externally visible actions on the container's start surface. -/
inductive ExtAction where
  | spawnStart
  | startExit
deriving DecidableEq

/-- The external action performed by the bus method `StartContainer`: its
body is a bare `self.waydroid_controller.start_container()` — a single
fire-and-forget `Popen` with no lock acquisition, release, or wait around
it.  The spawned command stays in flight after the method returns. -/
def StartContainerAction : ExtAction := ExtAction.spawnStart

/-- The possible schedules of the atomic actions of two concurrent
one-action invocations: the source takes no mutual-exclusion measure, so
both orders are possible, and no `startExit` can be interposed by the
daemon (it never waits on the spawned command). -/
def interleavePair (p q : ExtAction) : List (List ExtAction) := [[p, q], [q, p]]

/-- Schedules of two concurrent `StartContainer` bus invocations. -/
def startStartSchedules : List (List ExtAction) :=
  interleavePair StartContainerAction StartContainerAction

/-- Fold step tracking (current, maximum) number of spawned-and-not-yet
exited external start commands. -/
def inFlightStep : Nat × Nat → ExtAction → Nat × Nat
  | (cur, mx), .spawnStart => (cur + 1, max (cur + 1) mx)
  | (cur, mx), .startExit => (cur - 1, mx)

/-- Largest number of external start commands simultaneously in flight
along a trace. -/
def maxStartsInFlight (t : List ExtAction) : Nat :=
  (t.foldl inFlightStep (0, 0)).2

/-- The monitoring flag and thread bookkeeping of `WaydroidDBusService`. -/
structure MonState where
  monitoring : Bool
  threadsStarted : Nat
deriving DecidableEq

/-- `WaydroidDBusService._start_resource_monitoring`: spawn the monitor
thread only when the `monitoring` flag is not yet set. -/
def start_resource_monitoring (st : MonState) : MonState :=
  if st.monitoring then st else ⟨true, st.threadsStarted + 1⟩

end WaydroidDBusService

/-- A concrete one-row `resource_logs` table used by witnesses. -/
def sampleRow : WaydroidDBHandler.ResourceRow := ⟨1, 10, 0, 0, 0⟩

/-- Concrete backup environment: container running, both directories
present, data archive succeeds, app-entries archive fails. -/
def c2Env : WaydroidController.BackupEnv := ⟨true, true, true, true, false, 7⟩

/-- A concrete matched waydroid process with CPU percent 50 whose RSS
probe raises. -/
def c10Proc : WaydroidController.ProcInfo := ⟨"waydroid", [], some 50, none⟩

/-- Concrete sampling environment: one matched waydroid process with CPU
percent 50, one logical CPU, and a data-directory walk that raises. -/
def c10Env : WaydroidController.ResourceEnv :=
  { procIterOk := true,
    procs := [c10Proc],
    cpuCount := 1,
    dataPathExists := true,
    dirSizeBytes := none }

/-- A database file whose settings table already holds a user-modified
value. -/
def dbW : Option WaydroidDBHandler.RawDB :=
  some ⟨some [("auto_start", "9")], none, none⟩

/-- Two concrete backup directories; the second is newer and holds both
archives. -/
def c4d1 : WaydroidController.BackupDir := ⟨"waydroid_backup_a", 5, false, false⟩

/-- See `c4d1`. -/
def c4d2 : WaydroidController.BackupDir := ⟨"waydroid_backup_b", 9, true, true⟩

/-- Concrete restore environment with two backup candidates. -/
def c4Env : WaydroidController.RestoreEnv :=
  { backupRoot := some [c4d1, c4d2],
    containerRunning := true,
    dataExtractOk := true,
    appsExtractOk := true }

/-- One concrete, readable desktop entry mentioning the package
`com.app`. -/
def filesW : List WaydroidController.DesktopFile :=
  [⟨"a.desktop", .good ["Name=A", "Exec=waydroid app launch com.app"]⟩]

/-- A concrete sampling environment where process enumeration itself
raises. -/
def c10EnvFail : WaydroidController.ResourceEnv :=
  { procIterOk := false,
    procs := [],
    cpuCount := 1,
    dataPathExists := false,
    dirSizeBytes := none }

open WaydroidDBHandler WaydroidController WaydroidDBusService

/-- Any rowid present in `rows` is at most the running maximum. -/
theorem rowid_le_fold (rows : List ResourceRow) (r : ResourceRow) (h : r ∈ rows) :
    r.rowid ≤ rows.foldr (fun r m => max r.rowid m) 0 := by
  induction rows with
  | nil => cases h
  | cons a l ih =>
    rcases List.mem_cons.mp h with rfl | hl
    · exact Nat.le_max_left _ _
    · exact Nat.le_trans (ih hl) (Nat.le_max_right _ _)

/-- The freshly allocated rowid is strictly larger than every existing one. -/
theorem rowid_lt_nextRowid (rows : List ResourceRow) (r : ResourceRow) (h : r ∈ rows) :
    r.rowid < nextRowid rows :=
  Nat.lt_succ_of_le (rowid_le_fold rows r h)

/-- Appending a row with the fresh rowid keeps row identifiers distinct. -/
theorem nodup_append_fresh (rows : List ResourceRow) (row : ResourceRow)
    (wf : (rows.map (fun r => r.rowid)).Nodup) (hfresh : row.rowid = nextRowid rows) :
    ((rows ++ [row]).map (fun r => r.rowid)).Nodup := by
  rw [List.map_append]
  rw [List.nodup_append]
  refine ⟨wf, List.nodup_singleton _, ?_⟩
  intro i hi hi'
  simp only [List.map_cons, List.map_nil, List.mem_singleton] at hi'
  rcases List.mem_map.mp hi with ⟨r, hr, rfl⟩
  have hlt : r.rowid < nextRowid rows := rowid_lt_nextRowid rows r hr
  rw [hi', hfresh] at hlt
  exact Nat.lt_irrefl _ hlt

/-- Filtering a nodup list down to the members of a nodup list of some of
its elements keeps exactly that many elements. -/
theorem length_filter_mem (ids kept : List Nat) (hids : ids.Nodup)
    (hkept : kept.Nodup) (hsub : ∀ x ∈ kept, x ∈ ids) :
    (ids.filter (fun x => x ∈ kept)).length = kept.length := by
  apply List.Perm.length_eq
  apply (List.perm_ext_iff_of_nodup (hids.filter _) hkept).2
  intro a
  simp only [List.mem_filter, decide_eq_true_eq]
  exact ⟨fun h => h.2, fun h => ⟨hsub a h, h⟩⟩

/-- Mapping commutes with filtering on the mapped value. -/
theorem map_filter_comp (f : ResourceRow → Nat) (p : Nat → Bool) (l : List ResourceRow) :
    (l.filter (fun r => p (f r))).map f = (l.map f).filter p := by
  induction l with
  | nil => rfl
  | cons a l ih =>
    by_cases h : p (f a) = true
    · simp [List.filter_cons, h, ih]
    · simp only [Bool.not_eq_true] at h
      simp [List.filter_cons, h, ih]

/-- Core retention fact about `pruneLogs`: on distinct rowids it keeps
`min 100 n` rows, keeps only existing rows in order, and every kept row's
timestamp dominates every evicted row's timestamp. -/
theorem pruneLogs_spec (rows : List ResourceRow)
    (wf : (rows.map (fun r => r.rowid)).Nodup) :
    (pruneLogs rows).Sublist rows ∧
    (pruneLogs rows).length = min 100 rows.length ∧
    (∀ a ∈ pruneLogs rows, ∀ b ∈ rows, b ∉ pruneLogs rows →
      b.timestamp ≤ a.timestamp) := by
  have hperm : List.Perm (List.insertionSort tsDesc rows) rows :=
    List.perm_insertionSort _ _
  have hpermIds : List.Perm ((List.insertionSort tsDesc rows).map (fun r => r.rowid))
      (rows.map (fun r => r.rowid)) := hperm.map _
  have hSortedIdsNodup : ((List.insertionSort tsDesc rows).map (fun r => r.rowid)).Nodup :=
    hpermIds.nodup_iff.mpr wf
  have hkeptEq : keptRowids rows =
      ((List.insertionSort tsDesc rows).map (fun r => r.rowid)).take 100 := by
    rw [keptRowids, List.map_take]
  have hKeptNodup : (keptRowids rows).Nodup := by
    rw [hkeptEq]; exact hSortedIdsNodup.sublist (List.take_sublist _ _)
  have hKeptSub : ∀ x ∈ keptRowids rows, x ∈ rows.map (fun r => r.rowid) := by
    intro x hx
    rw [hkeptEq] at hx
    exact hpermIds.mem_iff.mp (List.mem_of_mem_take hx)
  refine ⟨List.filter_sublist _, ?_, ?_⟩
  · have hmap : (pruneLogs rows).map (fun r => r.rowid) =
        (rows.map (fun r => r.rowid)).filter (fun x => x ∈ keptRowids rows) := by
      rw [pruneLogs]
      exact map_filter_comp (fun r => r.rowid)
        (fun x => decide (x ∈ keptRowids rows)) rows
    have hlen : ((rows.map (fun r => r.rowid)).filter
        (fun x => x ∈ keptRowids rows)).length = (keptRowids rows).length :=
      length_filter_mem _ _ wf hKeptNodup hKeptSub
    have hplen : (pruneLogs rows).length = (keptRowids rows).length := by
      rw [← List.length_map (pruneLogs rows) (fun r => r.rowid), hmap, hlen]
    rw [hplen, hkeptEq, List.length_take, List.length_map, List.length_insertionSort]
  · intro a ha b hb hbdrop
    have haRows : a ∈ rows := List.mem_of_mem_filter ha
    have haId : a.rowid ∈ keptRowids rows := by
      have := List.of_mem_filter ha
      simpa using this
    have hbId : b.rowid ∉ keptRowids rows := by
      intro hmem
      exact hbdrop (List.mem_filter.mpr ⟨hb, by simpa using hmem⟩)
    rw [keptRowids] at haId hbId
    rcases List.mem_map.mp haId with ⟨a', ha'take, ha'id⟩
    have haSorted : a ∈ List.insertionSort tsDesc rows := hperm.mem_iff.mpr haRows
    have ha'Sorted : a' ∈ List.insertionSort tsDesc rows :=
      List.mem_of_mem_take ha'take
    have haa' : a' = a :=
      List.inj_on_of_nodup_map hSortedIdsNodup ha'Sorted haSorted ha'id
    have haTake : a ∈ (List.insertionSort tsDesc rows).take 100 := haa' ▸ ha'take
    have hbSorted : b ∈ List.insertionSort tsDesc rows := hperm.mem_iff.mpr hb
    have hbDrop : b ∈ (List.insertionSort tsDesc rows).drop 100 := by
      rcases (List.mem_append.mp
        (by rw [List.take_append_drop]; exact hbSorted :
          b ∈ (List.insertionSort tsDesc rows).take 100 ++
            (List.insertionSort tsDesc rows).drop 100)) with htk | hdp
      · exact absurd (List.mem_map.mpr ⟨b, htk, rfl⟩) hbId
      · exact hdp
    have hs : List.Sorted tsDesc (List.insertionSort tsDesc rows) :=
      List.sorted_insertionSort tsDesc rows
    have hcross := (List.pairwise_append.mp
      (by rw [List.take_append_drop]; exact hs :
        List.Pairwise tsDesc ((List.insertionSort tsDesc rows).take 100 ++
          (List.insertionSort tsDesc rows).drop 100))).2.2
    exact hcross a haTake b hbDrop

/-- Net length of the table after one `log_resource_usage` call. -/
theorem log_resource_usage_length (rows : List ResourceRow)
    (now : Nat) (cpu ram storage : Rat)
    (wf : (rows.map (fun r => r.rowid)).Nodup) :
    (log_resource_usage now cpu ram storage rows).length =
      min (rows.length + 1) 100 := by
  have wf' := nodup_append_fresh rows ⟨nextRowid rows, now, cpu, ram, storage⟩ wf rfl
  have h := (pruneLogs_spec (rows ++ [⟨nextRowid rows, now, cpu, ram, storage⟩]) wf').2.1
  rw [log_resource_usage, h, List.length_append, Nat.min_comm]
  rfl

/-- C1: after any `log_resource_usage` call on a table with distinct
rowids, the table is an unmutated selection of the previously inserted
rows plus the one new row (append-only, no mutation), has exactly
`min (n+1) 100` rows, and every retained row's timestamp is at least every
evicted row's timestamp — i.e. exactly the 100 newest-by-timestamp rows
remain once 100 or more are present. -/
theorem log_resource_usage_retention (rows : List ResourceRow)
    (now : Nat) (cpu ram storage : Rat)
    (wf : (rows.map (fun r => r.rowid)).Nodup) :
    (log_resource_usage now cpu ram storage rows).Sublist
      (rows ++ [⟨nextRowid rows, now, cpu, ram, storage⟩]) ∧
    (log_resource_usage now cpu ram storage rows).length =
      min (rows.length + 1) 100 ∧
    (∀ a ∈ log_resource_usage now cpu ram storage rows,
      ∀ b ∈ rows ++ [⟨nextRowid rows, now, cpu, ram, storage⟩],
        b ∉ log_resource_usage now cpu ram storage rows →
          b.timestamp ≤ a.timestamp) := by
  have wf' := nodup_append_fresh rows ⟨nextRowid rows, now, cpu, ram, storage⟩ wf rfl
  have h := pruneLogs_spec (rows ++ [⟨nextRowid rows, now, cpu, ram, storage⟩]) wf'
  exact ⟨h.1, log_resource_usage_length rows now cpu ram storage wf, h.2.2⟩

/-- Concrete instantiation of `log_resource_usage_retention` at a one-row
table. -/
theorem log_resource_usage_retention_witness :
    (([sampleRow].map (fun r => r.rowid)).Nodup) ∧
    ((log_resource_usage 5 1 2 3 [sampleRow]).Sublist
       ([sampleRow] ++ [⟨nextRowid [sampleRow], 5, 1, 2, 3⟩]) ∧
     (log_resource_usage 5 1 2 3 [sampleRow]).length =
       min ([sampleRow].length + 1) 100 ∧
     (∀ a ∈ log_resource_usage 5 1 2 3 [sampleRow],
       ∀ b ∈ [sampleRow] ++ [⟨nextRowid [sampleRow], 5, 1, 2, 3⟩],
         b ∉ log_resource_usage 5 1 2 3 [sampleRow] →
           b.timestamp ≤ a.timestamp)) :=
  ⟨by decide, log_resource_usage_retention [sampleRow] 5 1 2 3 (by decide)⟩

/-- After `set_setting`, the key's row is the appended one. -/
theorem find?_set_setting (s : List (String × String)) (k v : String) :
    (set_setting k v s).find? (fun r => r.1 == k) = some (k, v) := by
  rw [set_setting]
  induction s with
  | nil => simp [List.find?]
  | cons a t ih =>
    by_cases h : a.1 = k
    · simp [List.filter_cons, h]
    · simp [List.filter_cons, h, List.find?]

/-- C9: `set_setting` followed by `get_setting` returns the stored value,
`set_setting` is idempotent, `get_setting` on an absent key returns the
absent marker `none`, and on a fresh store (`_ensure_db_exists` on a
missing file) storing `'1'` under `'auto_start'` reads back `'1'`. -/
theorem settings_roundtrip :
    (∀ (s : List (String × String)) (k v : String),
      get_setting k (set_setting k v s) = some v) ∧
    (∀ (s : List (String × String)) (k v : String),
      set_setting k v (set_setting k v s) = set_setting k v s) ∧
    (∀ (s : List (String × String)) (k : String),
      get_setting k s = none ↔ k ∉ s.map Prod.fst) ∧
    (∀ now : Nat,
      get_setting "auto_start" (set_setting "auto_start" "1"
        ((ensure_db_exists now none).settings.getD [])) = some "1") := by
  have h1 : ∀ (s : List (String × String)) (k v : String),
      get_setting k (set_setting k v s) = some v := by
    intro s k v
    rw [get_setting, find?_set_setting]
    rfl
  refine ⟨h1, ?_, ?_, fun now => h1 _ _ _⟩
  · intro s k v
    simp [set_setting, List.filter_append, List.filter_filter]
  · intro s k
    rw [get_setting, Option.map_eq_none', List.find?_eq_none]
    constructor
    · intro h hk
      rcases List.mem_map.mp hk with ⟨r, hr, hrk⟩
      exact h r hr (by simp [hrk])
    · intro h r hr hp
      exact h (List.mem_map.mpr ⟨r, hr, by simpa using hp⟩)

/-- After `insert_or_ignore`, the inserted key is present. -/
theorem any_insert_or_ignore_self (k v : String) (s : List (String × String)) :
    (insert_or_ignore k v s).any (fun r => r.1 == k) = true := by
  rw [insert_or_ignore]
  split
  · next h => exact h
  · simp [List.any_append]

/-- `insert_or_ignore` never removes a row satisfying `p`. -/
theorem any_insert_or_ignore_mono (k v : String) (p : String × String → Bool)
    (s : List (String × String)) (h : s.any p = true) :
    (insert_or_ignore k v s).any p = true := by
  rw [insert_or_ignore]
  split
  · exact h
  · simp [List.any_append, h]

/-- `insert_or_ignore` on an already-present key is the identity. -/
theorem insert_or_ignore_present (k v : String) (s : List (String × String))
    (h : s.any (fun r => r.1 == k) = true) : insert_or_ignore k v s = s := by
  rw [insert_or_ignore, if_pos h]

/-- `find?` ignores an appended tail once the front already matched. -/
theorem find?_append_some (l l' : List (String × String))
    (p : String × String → Bool) (r : String × String)
    (h : l.find? p = some r) : (l ++ l').find? p = some r := by
  induction l with
  | nil => cases h
  | cons a t ih =>
    rw [List.cons_append]
    cases hpa : p a
    · rw [List.find?_cons_of_neg _ (by simp [hpa])] at h ⊢
      exact ih h
    · rw [List.find?_cons_of_pos _ hpa] at h ⊢
      exact h

/-- `insert_or_ignore` preserves every readable setting value. -/
theorem get_insert_or_ignore (k k' v v' : String) (s : List (String × String))
    (h : get_setting k s = some v) :
    get_setting k (insert_or_ignore k' v' s) = some v := by
  rw [insert_or_ignore]
  split
  · exact h
  · rw [get_setting] at h ⊢
    rcases hf : s.find? (fun r => r.1 == k) with _ | r
    · rw [hf] at h; cases h
    · rw [find?_append_some _ _ _ _ hf]
      rw [hf] at h
      exact h

/-- Folding `insert_or_ignore` over a seed list never removes a matching
row. -/
theorem foldl_ioi_mono (kvs : List (String × String))
    (p : String × String → Bool) (base : List (String × String))
    (h : base.any p = true) :
    (kvs.foldl (fun s kv => insert_or_ignore kv.1 kv.2 s) base).any p = true := by
  induction kvs generalizing base with
  | nil => exact h
  | cons a rest ih => exact ih _ (any_insert_or_ignore_mono _ _ _ _ h)

/-- After seeding, every seeded key is present. -/
theorem foldl_ioi_present (kvs : List (String × String))
    (base : List (String × String)) :
    ∀ kv ∈ kvs, (kvs.foldl (fun s kv => insert_or_ignore kv.1 kv.2 s) base).any
      (fun r => r.1 == kv.1) = true := by
  induction kvs generalizing base with
  | nil => intro kv h; cases h
  | cons a rest ih =>
    intro kv hkv
    rcases List.mem_cons.mp hkv with rfl | h
    · exact foldl_ioi_mono rest _ _ (any_insert_or_ignore_self _ _ _)
    · exact ih _ _ h

/-- Seeding over keys that are all already present is the identity. -/
theorem foldl_ioi_fixed (kvs base : List (String × String))
    (h : ∀ kv ∈ kvs, base.any (fun r => r.1 == kv.1) = true) :
    kvs.foldl (fun s kv => insert_or_ignore kv.1 kv.2 s) base = base := by
  induction kvs with
  | nil => rfl
  | cons a rest ih =>
    rw [List.foldl_cons, insert_or_ignore_present _ _ _ (h a (List.mem_cons_self _ _))]
    exact ih (fun kv hkv => h kv (List.mem_cons_of_mem _ hkv))

/-- Seeding preserves every readable setting value. -/
theorem foldl_ioi_get (kvs base : List (String × String)) (k v : String)
    (h : get_setting k base = some v) :
    get_setting k (kvs.foldl (fun s kv => insert_or_ignore kv.1 kv.2 s) base) =
      some v := by
  induction kvs generalizing base with
  | nil => exact h
  | cons a rest ih => exact ih _ (get_insert_or_ignore _ _ _ _ _ h)

/-- A second default-seeding pass (with any timestamp) changes nothing. -/
theorem seed_fixed (now1 now2 : Nat) (base : List (String × String)) :
    (default_settings now2).foldl (fun s kv => insert_or_ignore kv.1 kv.2 s)
      ((default_settings now1).foldl (fun s kv => insert_or_ignore kv.1 kv.2 s) base) =
    (default_settings now1).foldl (fun s kv => insert_or_ignore kv.1 kv.2 s) base := by
  apply foldl_ioi_fixed
  intro kv hkv
  have hmem : ∀ kv' ∈ default_settings now1,
      ((default_settings now1).foldl (fun s kv => insert_or_ignore kv.1 kv.2 s)
        base).any (fun r => r.1 == kv'.1) = true :=
    foldl_ioi_present _ _
  simp only [default_settings, List.mem_cons, List.not_mem_nil, or_false] at hkv
  rcases hkv with rfl | rfl | rfl | rfl
  · exact hmem _ (by simp [default_settings])
  · exact hmem _ (by simp [default_settings])
  · exact hmem ("last_update_check", toString now1) (by simp [default_settings])
  · exact hmem _ (by simp [default_settings])

/-- C6: `_ensure_db_exists` is idempotent — a second run (at any later
time) returns the store unchanged, so the schema is created at most once,
no default row is duplicated and nothing raises; every setting value
already present (user-modified or not) is preserved, so defaults are
seeded only for absent keys; and `CREATE TABLE IF NOT EXISTS` leaves an
existing table untouched. -/
theorem ensure_db_idempotent :
    (∀ (now1 now2 : Nat) (db : Option RawDB),
      ensure_db_exists now2 (some (ensure_db_exists now1 db)) =
        ensure_db_exists now1 db) ∧
    (∀ (now : Nat) (db : Option RawDB) (s : List (String × String)) (k v : String),
      (connectDB db).settings = some s → get_setting k s = some v →
      ∃ s', (ensure_db_exists now db).settings = some s' ∧
        get_setting k s' = some v) ∧
    (∀ (t : List (String × String)), createTableIfMissing (some t) = t) := by
  refine ⟨?_, ?_, fun t => rfl⟩
  · intro now1 now2 db
    simp only [ensure_db_exists, connectDB, Option.getD_some, createTableIfMissing,
      RawDB.mk.injEq, Option.some.injEq]
    exact ⟨seed_fixed now1 now2 _, trivial, trivial⟩
  · intro now db s k v hs hv
    refine ⟨(default_settings now).foldl
      (fun s kv => insert_or_ignore kv.1 kv.2 s) s, ?_, foldl_ioi_get _ _ _ _ hv⟩
    simp [ensure_db_exists, hs, createTableIfMissing]

/-- Concrete instantiation of `ensure_db_idempotent` on a store holding a
user-modified `auto_start`. -/
theorem ensure_db_idempotent_witness :
    (WaydroidDBHandler.connectDB dbW).settings = some [("auto_start", "9")] ∧
    get_setting "auto_start" [("auto_start", "9")] = some "9" ∧
    (∃ s', (ensure_db_exists 3 dbW).settings = some s' ∧
      get_setting "auto_start" s' = some "9") :=
  ⟨by decide, by decide,
    ensure_db_idempotent.2.1 3 dbW [("auto_start", "9")] "auto_start" "9"
      (by decide) (by decide)⟩

/-- C5 counterexample: `start_container` launches via `Popen` and never
observes the command's exit status, so a non-zero exit of the invoked
start command is reported as `True`, not as the boolean failure the claim
asserts for every runtime operation. -/
theorem start_container_true_on_nonzero_exit :
    start_container ProcOutcome.exitNonzero = true := rfl

/-- C5 amended: every runtime operation is total (no exception escapes the
boundary — each outcome maps to a boolean), and a missing binary or
non-zero exit yields `false` (not-running for the status probe) for
`is_container_running`, `stop_container`, `freeze_container` and
`unfreeze_container`; `start_container` yields `false` on a missing
binary but `true` on a non-zero exit, which it never observes. -/
theorem runtime_ops_error_reporting :
    is_container_running ProcOutcome.exitNonzero = false ∧
    is_container_running ProcOutcome.binMissing = false ∧
    stop_container ProcOutcome.exitNonzero = false ∧
    stop_container ProcOutcome.binMissing = false ∧
    freeze_container ProcOutcome.exitNonzero = false ∧
    freeze_container ProcOutcome.binMissing = false ∧
    unfreeze_container ProcOutcome.exitNonzero = false ∧
    unfreeze_container ProcOutcome.binMissing = false ∧
    start_container ProcOutcome.binMissing = false ∧
    start_container ProcOutcome.exitNonzero = true :=
  ⟨rfl, rfl, rfl, rfl, rfl, rfl, rfl, rfl, rfl, rfl⟩

/-- C2 counterexample: container running at entry, data archive succeeds,
app-entries archive fails — `backup_data` returns failure with the
container stopped and no restart attempted, because the restart sits
after the archive steps inside the same `try`. -/
theorem backup_data_skips_restart_on_failure :
    c2Env.containerRunning = true ∧
    (backup_data c2Env []).dataArchived = true ∧
    (backup_data c2Env []).result = false ∧
    (backup_data c2Env []).startAttempted = false := by decide

/-- C2 amended: the restart-on-exit step IS gated by the archive steps —
when any archive step fails, `backup_data` returns failure without
attempting a restart (and without recording `last_backup_time`); the
restart is attempted exactly on the all-success path when the container
was running at entry. -/
theorem backup_data_restart_gated (env : BackupEnv) (s : List (String × String)) :
    ((env.dataPathExists && !env.dataArchiveOk) = true ∨
        (env.appsPathExists && !env.appsArchiveOk) = true →
      (backup_data env s).result = false ∧
      (backup_data env s).startAttempted = false ∧
      (backup_data env s).stopAttempted = env.containerRunning ∧
      (backup_data env s).settings = s) ∧
    ((env.dataPathExists && !env.dataArchiveOk) = false →
      (env.appsPathExists && !env.appsArchiveOk) = false →
      (backup_data env s).result = true ∧
      (backup_data env s).startAttempted = env.containerRunning) := by
  cases h1 : (env.dataPathExists && !env.dataArchiveOk) <;>
    cases h2 : (env.appsPathExists && !env.appsArchiveOk) <;>
      simp [backup_data, h1, h2]

/-- Concrete instantiation of `backup_data_restart_gated` at `c2Env`. -/
theorem backup_data_restart_gated_witness :
    ((c2Env.dataPathExists && !c2Env.dataArchiveOk) = true ∨
      (c2Env.appsPathExists && !c2Env.appsArchiveOk) = true) ∧
    ((backup_data c2Env []).result = false ∧
     (backup_data c2Env []).startAttempted = false ∧
     (backup_data c2Env []).stopAttempted = c2Env.containerRunning ∧
     (backup_data c2Env []).settings = []) :=
  ⟨Or.inr (by decide), (backup_data_restart_gated c2Env []).1 (Or.inr (by decide))⟩

/-- C7: a monitor tick with the container not running leaves the store
untouched and emits no event; a tick with it running performs exactly one
`log_resource_usage` append and emits exactly one `ResourceUsageChanged`
event carrying the three sampled figures; consecutive ticks are separated
by the fixed 3-second sleep. -/
theorem monitor_tick_spec (env : ResourceEnv)
    (logs : List ResourceRow) (now : Nat) :
    monitor_tick false env logs now = (logs, []) ∧
    (monitor_tick true env logs now).1 =
      log_resource_usage now
        (get_container_resource_usage env logs now).cpu_usage
        (get_container_resource_usage env logs now).ram_usage
        (get_container_resource_usage env logs now).storage_usage logs ∧
    (monitor_tick true env logs now).2 =
      [⟨(get_container_resource_usage env logs now).cpu_usage,
        (get_container_resource_usage env logs now).ram_usage,
        (get_container_resource_usage env logs now).storage_usage⟩] ∧
    monitorIntervalSeconds = 3 :=
  ⟨rfl, rfl, rfl, rfl⟩

/-- Appending to an empty `resource_logs` table yields the one inserted
row with rowid 1. -/
theorem log_resource_usage_nil (now : Nat) (c r s : Rat) :
    log_resource_usage now c r s [] = [⟨1, now, c, r, s⟩] := rfl

/-- C10 counterexample: sampling fails partway (the data-directory walk
raises after CPU usage was computed), yet the persisted and returned
sample is not `(0, 0, 0)` — it carries the already-computed CPU figure. -/
theorem resource_usage_failure_not_all_zero :
    c10Env.dirSizeBytes = none ∧
    (get_container_resource_usage c10Env [] 5).cpu_usage = 50 ∧
    (get_container_resource_usage c10Env [] 5).ram_usage = 0 ∧
    (get_container_resource_usage c10Env [] 5).storage_usage = 0 ∧
    (get_container_resource_usage c10Env [] 5).logs = [⟨1, 5, 50, 0, 0⟩] := by
  have hm : matchedProc ⟨"waydroid", [], some 50, none⟩ = true := by decide
  have hc : (get_container_resource_usage c10Env [] 5).cpu_usage = 50 := by
    simp [get_container_resource_usage, c10Env, List.filter_cons, c10Proc, hm]
  have hr : (get_container_resource_usage c10Env [] 5).ram_usage = 0 := by
    simp [get_container_resource_usage, c10Env, List.filter_cons, c10Proc, hm]
  have hs : (get_container_resource_usage c10Env [] 5).storage_usage = 0 := rfl
  refine ⟨rfl, hc, hr, hs, ?_⟩
  calc (get_container_resource_usage c10Env [] 5).logs
      = log_resource_usage 5
          (get_container_resource_usage c10Env [] 5).cpu_usage
          (get_container_resource_usage c10Env [] 5).ram_usage
          (get_container_resource_usage c10Env [] 5).storage_usage [] := rfl
    _ = [⟨1, 5, (get_container_resource_usage c10Env [] 5).cpu_usage,
          (get_container_resource_usage c10Env [] 5).ram_usage,
          (get_container_resource_usage c10Env [] 5).storage_usage⟩] :=
        log_resource_usage_nil 5 _ _ _
    _ = [⟨1, 5, 50, 0, 0⟩] := by rw [hc, hr, hs]

/-- C10 amended: every `get_container_resource_usage` call — regardless of
container state, which it never consults, and of any sampling failure —
performs exactly one `log_resource_usage` append of the returned triple
(net table growth of one row up to the 100 cap); when process enumeration
itself fails all three persisted figures are zero, and a failed directory
walk zeroes only the storage figure. -/
theorem get_resource_usage_always_logs (env : ResourceEnv)
    (logs : List ResourceRow) (now : Nat)
    (wf : (logs.map (fun r => r.rowid)).Nodup) :
    (get_container_resource_usage env logs now).logs =
      log_resource_usage now
        (get_container_resource_usage env logs now).cpu_usage
        (get_container_resource_usage env logs now).ram_usage
        (get_container_resource_usage env logs now).storage_usage logs ∧
    (get_container_resource_usage env logs now).logs.length =
      min (logs.length + 1) 100 ∧
    (env.procIterOk = false →
      (get_container_resource_usage env logs now).cpu_usage = 0 ∧
      (get_container_resource_usage env logs now).ram_usage = 0 ∧
      (get_container_resource_usage env logs now).storage_usage = 0) ∧
    (env.dirSizeBytes = none →
      (get_container_resource_usage env logs now).storage_usage = 0) := by
  refine ⟨rfl, ?_, ?_, ?_⟩
  · exact log_resource_usage_length logs now _ _ _ wf
  · intro h
    simp [get_container_resource_usage, h]
  · intro h
    cases hp : env.procIterOk <;> cases hd : env.dataPathExists <;>
      simp [get_container_resource_usage, h, hp, hd]

/-- Concrete instantiation of `get_resource_usage_always_logs` at an
environment where process enumeration raises. -/
theorem get_resource_usage_always_logs_witness :
    ((([] : List ResourceRow).map (fun r => r.rowid)).Nodup) ∧
    ((get_container_resource_usage c10EnvFail [] 0).logs =
      log_resource_usage 0
        (get_container_resource_usage c10EnvFail [] 0).cpu_usage
        (get_container_resource_usage c10EnvFail [] 0).ram_usage
        (get_container_resource_usage c10EnvFail [] 0).storage_usage [] ∧
     (get_container_resource_usage c10EnvFail [] 0).logs.length =
       min (([] : List ResourceRow).length + 1) 100 ∧
     (c10EnvFail.procIterOk = false →
       (get_container_resource_usage c10EnvFail [] 0).cpu_usage = 0 ∧
       (get_container_resource_usage c10EnvFail [] 0).ram_usage = 0 ∧
       (get_container_resource_usage c10EnvFail [] 0).storage_usage = 0) ∧
     (c10EnvFail.dirSizeBytes = none →
       (get_container_resource_usage c10EnvFail [] 0).storage_usage = 0)) :=
  ⟨by decide, get_resource_usage_always_logs c10EnvFail [] 0 (by decide)⟩

/-- After the visibility upsert, the package's row is the appended one. -/
theorem find?_db_set_vis (vis : List VisRow) (pkg name : String) (visible : Bool) :
    (db_set_app_visibility pkg name visible vis).find?
      (fun r => r.package_name == pkg) = some ⟨pkg, name, visible⟩ := by
  rw [db_set_app_visibility]
  induction vis with
  | nil => simp [List.find?]
  | cons a t ih =>
    by_cases h : a.package_name = pkg
    · simp [List.filter_cons, h]
    · simp [List.filter_cons, h, List.find?]

/-- Reading back the visibility row after the upsert. -/
theorem visLookup_set (vis : List VisRow) (pkg name : String) (visible : Bool) :
    visLookup pkg (db_set_app_visibility pkg name visible vis) =
      some (name, visible) := by
  rw [visLookup, find?_db_set_vis]
  rfl

/-- When every `.desktop` file is readable, the discovery loop finishes. -/
theorem scan_ok_of_readable (pkg : String) (files : List DesktopFile)
    (h : ∀ f ∈ files, isDesktopFile f.name = true → f.content ≠ FileContent.broken) :
    ∃ sel, scanDesktopFiles pkg files = Except.ok sel := by
  induction files with
  | nil => exact ⟨[], rfl⟩
  | cons f fs ih =>
    rcases ih (fun g hg => h g (List.mem_cons_of_mem _ hg)) with ⟨sel, hsel⟩
    simp only [scanDesktopFiles]
    by_cases hd : isDesktopFile f.name = true
    · rw [if_pos hd]
      cases hcont : f.content with
      | broken => exact absurd hcont (h f (List.mem_cons_self _ _) hd)
      | good lines =>
        rw [hsel]
        exact ⟨_, rfl⟩
    · rw [if_neg hd]
      exact ⟨sel, hsel⟩

/-- An unreadable `.desktop` file makes the discovery loop raise. -/
theorem scan_broken_error (pkg : String) (files : List DesktopFile)
    (f : DesktopFile) (hf : f ∈ files) (hd : isDesktopFile f.name = true)
    (hb : f.content = FileContent.broken) :
    scanDesktopFiles pkg files = Except.error () := by
  induction files with
  | nil => cases hf
  | cons g gs ih =>
    rcases List.mem_cons.mp hf with rfl | h
    · simp only [scanDesktopFiles]
      rw [if_pos hd, hb]
    · simp only [scanDesktopFiles]
      by_cases hgd : isDesktopFile g.name = true
      · rw [if_pos hgd]
        cases hc : g.content with
        | broken => rfl
        | good lines => rw [ih h]
      · rw [if_neg hgd]
        exact ih h

/-- Every readable `.desktop` file that mentions the package ends up in
the selected list. -/
theorem scan_sel_of_mention (pkg : String) (files : List DesktopFile)
    (sel : List String) (hscan : scanDesktopFiles pkg files = Except.ok sel) :
    ∀ f ∈ files, isDesktopFile f.name = true → ∀ ls,
      f.content = FileContent.good ls → mentionsPkg pkg ls = true →
      f.name ∈ sel := by
  induction files generalizing sel with
  | nil => intro f hf; cases hf
  | cons g gs ih =>
    intro f hf hd ls hls hmen
    simp only [scanDesktopFiles] at hscan
    by_cases hgd : isDesktopFile g.name = true
    · rw [if_pos hgd] at hscan
      cases hc : g.content with
      | broken => rw [hc] at hscan; cases hscan
      | good glines =>
        rw [hc] at hscan
        cases hrec : scanDesktopFiles pkg gs with
        | error e => rw [hrec] at hscan; cases hscan
        | ok rest =>
          rw [hrec] at hscan
          have hsel : (if mentionsPkg pkg glines then g.name :: rest else rest) = sel := by
            injection hscan
          rcases List.mem_cons.mp hf with rfl | hmem
          · have hlg : ls = glines := by
              rw [hls] at hc
              exact FileContent.good.inj hc
            subst hlg
            rw [← hsel, if_pos hmen]
            exact List.mem_cons_self _ _
          · have hin := ih rest hrec f hmem hd ls hls hmen
            rw [← hsel]
            by_cases hm2 : mentionsPkg pkg glines = true
            · rw [if_pos hm2]; exact List.mem_cons_of_mem _ hin
            · rw [if_neg hm2]; exact hin
    · rw [if_neg hgd] at hscan
      rcases List.mem_cons.mp hf with rfl | hmem
      · exact absurd hd hgd
      · exact ih sel hscan f hmem hd ls hls hmen

/-- The rewritten lines contain a `NoDisplay=` flag line, and every flag
line carries the value `str(not visible).lower()`. -/
theorem rewriteLines_flag (visible : Bool) (ls : List String) :
    (∃ l ∈ rewriteLines visible ls, isNoDisplayLine l = true) ∧
    (∀ l ∈ rewriteLines visible ls, isNoDisplayLine l = true →
      l = noDisplayLine visible) := by
  have hnd : isNoDisplayLine (noDisplayLine visible) = true := by
    cases visible <;> decide
  have hmap : ∀ l ∈ ls.map (fun l =>
      if isNoDisplayLine l then noDisplayLine visible else l),
      isNoDisplayLine l = true → l = noDisplayLine visible := by
    intro l hl hld
    rcases List.mem_map.mp hl with ⟨x, hx, hfx⟩
    by_cases hxd : isNoDisplayLine x = true
    · rw [← hfx, if_pos hxd]
    · rw [← hfx, if_neg hxd] at hld
      exact absurd hld hxd
  rw [rewriteLines]
  by_cases h : ls.any isNoDisplayLine = true
  · rw [if_pos h]
    refine ⟨?_, hmap⟩
    rcases List.any_eq_true.mp h with ⟨l0, hl0, hl0d⟩
    exact ⟨noDisplayLine visible,
      List.mem_map.mpr ⟨l0, hl0, by rw [if_pos hl0d]⟩, hnd⟩
  · rw [if_neg h]
    constructor
    · exact ⟨noDisplayLine visible,
        List.mem_append_right _ (List.mem_singleton.mpr rfl), hnd⟩
    · intro l hl hld
      rcases List.mem_append.mp hl with hm | hm
      · exact hmap l hm hld
      · exact List.mem_singleton.mp hm

/-- C3: `set_app_visibility` succeeds exactly when every `.desktop` file
is readable (a failure during the two-step update is surfaced as an
overall `false`, never silently); after success the store's row for the
package records the requested boolean, and every desktop entry whose
content references the package has its `NoDisplay` flag equal to the
negation of `visible`, with the flag line inserted when absent; a missing
applications directory trivially succeeds. -/
theorem set_app_visibility_convergence (pkg appName : String) (visible : Bool)
    (vis : List VisRow) (files : List DesktopFile) :
    ((set_app_visibility pkg appName visible vis (some files)).ok = true ↔
      ∀ f ∈ files, isDesktopFile f.name = true → f.content ≠ FileContent.broken) ∧
    ((set_app_visibility pkg appName visible vis (some files)).ok = true →
      visLookup pkg (set_app_visibility pkg appName visible vis (some files)).vis =
        some (appName, visible)) ∧
    ((set_app_visibility pkg appName visible vis (some files)).ok = true →
      ∃ files',
        (set_app_visibility pkg appName visible vis (some files)).apps = some files' ∧
        files'.length = files.length ∧
        ∀ i (hi : i < files.length) (hi' : i < files'.length),
          (files'.get ⟨i, hi'⟩).name = (files.get ⟨i, hi⟩).name ∧
          (isDesktopFile (files.get ⟨i, hi⟩).name = true →
            ∀ ls, (files.get ⟨i, hi⟩).content = FileContent.good ls →
              mentionsPkg pkg ls = true →
              ∃ ls', (files'.get ⟨i, hi'⟩).content = FileContent.good ls' ∧
                (∃ l ∈ ls', isNoDisplayLine l = true) ∧
                (∀ l ∈ ls', isNoDisplayLine l = true →
                  l = noDisplayLine visible))) ∧
    ((set_app_visibility pkg appName visible vis none).ok = true ∧
      (set_app_visibility pkg appName visible vis none).vis =
        db_set_app_visibility pkg appName visible vis) := by
  refine ⟨?_, ?_, ?_, rfl, rfl⟩
  · constructor
    · intro hok f hf hd hb
      have herr := scan_broken_error pkg files f hf hd hb
      simp only [set_app_visibility] at hok
      rw [herr] at hok
      cases hok
    · intro hreadable
      rcases scan_ok_of_readable pkg files hreadable with ⟨sel, hsel⟩
      simp only [set_app_visibility]
      rw [hsel]
  · intro _
    cases hscan : scanDesktopFiles pkg files with
    | error e =>
      simp only [set_app_visibility]
      rw [hscan]
      exact visLookup_set vis pkg appName visible
    | ok sel =>
      simp only [set_app_visibility]
      rw [hscan]
      exact visLookup_set vis pkg appName visible
  · intro hok
    cases hscan : scanDesktopFiles pkg files with
    | error e =>
      exfalso
      simp only [set_app_visibility] at hok
      rw [hscan] at hok
      cases hok
    | ok sel =>
      refine ⟨updateFiles visible sel files, ?_, by simp [updateFiles], ?_⟩
      · simp only [set_app_visibility]
        rw [hscan]
      · intro i hi hi'
        have hg : (updateFiles visible sel files).get ⟨i, hi'⟩ =
            (if (files.get ⟨i, hi⟩).name ∈ sel then
              { files.get ⟨i, hi⟩ with content := match (files.get ⟨i, hi⟩).content with
                  | FileContent.good ls => FileContent.good (rewriteLines visible ls)
                  | FileContent.broken => FileContent.broken }
            else files.get ⟨i, hi⟩) := by
          simp [updateFiles]
        constructor
        · rw [hg]
          by_cases hmem : (files.get ⟨i, hi⟩).name ∈ sel
          · rw [if_pos hmem]
          · rw [if_neg hmem]
        · intro hd ls hls hmen
          have hmem : (files.get ⟨i, hi⟩).name ∈ sel :=
            scan_sel_of_mention pkg files sel hscan _
              (List.get_mem files i hi) hd ls hls hmen
          refine ⟨rewriteLines visible ls, ?_,
            (rewriteLines_flag visible ls).1, (rewriteLines_flag visible ls).2⟩
          rw [hg, if_pos hmem]
          have hls2 : files[i].content = FileContent.good ls := hls
          simp [hls2]

/-- Concrete instantiation of `set_app_visibility_convergence`: one
readable entry mentioning the package. -/
theorem set_app_visibility_convergence_witness :
    (∀ f ∈ filesW, isDesktopFile f.name = true → f.content ≠ FileContent.broken) ∧
    (set_app_visibility "com.app" "A" false [] (some filesW)).ok = true :=
  ⟨by decide,
    (set_app_visibility_convergence "com.app" "A" false [] filesW).1.mpr (by decide)⟩

/-- Python `max` returns an element of the scanned list. -/
theorem maxByMtime_mem (best : BackupDir) (l : List BackupDir) :
    maxByMtime best l ∈ best :: l := by
  induction l generalizing best with
  | nil => exact List.mem_singleton.mpr rfl
  | cons d ds ih =>
    rw [maxByMtime]
    have hb : (if best.mtime < d.mtime then d else best) ∈ best :: d :: ds := by
      split
      · exact List.mem_cons_of_mem _ (List.mem_cons_self _ _)
      · exact List.mem_cons_self _ _
    rcases List.mem_cons.mp (ih (if best.mtime < d.mtime then d else best)) with h | h
    · rw [h]; exact hb
    · exact List.mem_cons_of_mem _ (List.mem_cons_of_mem _ h)

/-- Python `max` dominates every scanned element's modification time. -/
theorem maxByMtime_ge (best : BackupDir) (l : List BackupDir) :
    ∀ x ∈ best :: l, x.mtime ≤ (maxByMtime best l).mtime := by
  induction l generalizing best with
  | nil =>
    intro x hx
    rcases List.mem_cons.mp hx with rfl | h
    · exact Nat.le_refl _
    · cases h
  | cons d ds ih =>
    intro x hx
    rw [maxByMtime]
    have hbest : best.mtime ≤ (if best.mtime < d.mtime then d else best).mtime := by
      split
      · next hc => exact Nat.le_of_lt hc
      · exact Nat.le_refl _
    have hd : d.mtime ≤ (if best.mtime < d.mtime then d else best).mtime := by
      split
      · exact Nat.le_refl _
      · next hc => exact Nat.le_of_not_lt hc
    have hb' := ih (if best.mtime < d.mtime then d else best)
    rcases List.mem_cons.mp hx with rfl | hx2
    · exact Nat.le_trans hbest (hb' _ (List.mem_cons_self _ _))
    rcases List.mem_cons.mp hx2 with rfl | hx3
    · exact Nat.le_trans hd (hb' _ (List.mem_cons_self _ _))
    · exact hb' x (List.mem_cons_of_mem _ hx3)

/-- C4: `restore_data` with no argument fails closed — a missing or empty
backup root returns failure with nothing stopped, extracted or mutated;
when no candidate directory holds any archive it likewise returns failure
untouched; and when candidates exist the selected implicit latest is a
candidate whose modification time dominates all others. -/
theorem restore_data_fails_closed (env : RestoreEnv) :
    (env.backupRoot = none ∨ env.backupRoot = some [] →
      restore_data_latest env = ⟨false, false, false, false, false, none⟩) ∧
    (∀ ds, env.backupRoot = some ds →
      (∀ d ∈ ds, d.hasDataArchive = false ∧ d.hasAppsArchive = false) →
      (restore_data_latest env).result = false ∧
      (restore_data_latest env).stopAttempted = false ∧
      (restore_data_latest env).extractedData = false ∧
      (restore_data_latest env).extractedApps = false) ∧
    (∀ d ds, env.backupRoot = some (d :: ds) →
      ∃ sel ∈ d :: ds, (restore_data_latest env).selected = some sel.name ∧
        ∀ x ∈ d :: ds, x.mtime ≤ sel.mtime) := by
  refine ⟨?_, ?_, ?_⟩
  · rintro (h | h) <;> rw [restore_data_latest, h]
  · rintro ds hds hall
    rcases ds with _ | ⟨d, ds'⟩
    · rw [restore_data_latest, hds]
      exact ⟨rfl, rfl, rfl, rfl⟩
    · have hsel := hall _ (maxByMtime_mem d ds')
      simp only [restore_data_latest, hds]
      rw [hsel.1, hsel.2]
      simp
  · rintro d ds hds
    refine ⟨maxByMtime d ds, maxByMtime_mem d ds, ?_, maxByMtime_ge d ds⟩
    simp only [restore_data_latest, hds]
    split_ifs <;> rfl

/-- Concrete instantiation of `restore_data_fails_closed`: two candidate
directories, the newer of which is selected. -/
theorem restore_data_fails_closed_witness :
    c4Env.backupRoot = some (c4d1 :: [c4d2]) ∧
    (∃ sel ∈ c4d1 :: [c4d2], (restore_data_latest c4Env).selected = some sel.name ∧
      ∀ x ∈ c4d1 :: [c4d2], x.mtime ≤ sel.mtime) :=
  ⟨rfl, (restore_data_fails_closed c4Env).2.2 c4d1 [c4d2] rfl⟩

/-- C8 counterexample: a schedule of two concurrent `StartContainer` bus
invocations in which two external start commands are simultaneously in
flight — mutual exclusion does not hold. -/
theorem concurrent_start_overlap :
    [ExtAction.spawnStart, ExtAction.spawnStart] ∈ startStartSchedules ∧
    maxStartsInFlight [ExtAction.spawnStart, ExtAction.spawnStart] = 2 := by
  decide

/-- C8 amended: the source enforces no mutual exclusion — every schedule
of two concurrent `StartContainer` invocations puts two external start
commands in flight simultaneously (the spawn is fire-and-forget and
nothing waits or locks); the only concurrency guard in the service is the
`monitoring` flag, which makes `_start_resource_monitoring` idempotent so
at most one monitor thread is ever spawned. -/
theorem no_mutual_exclusion :
    (∀ t ∈ startStartSchedules, maxStartsInFlight t = 2) ∧
    (∀ st : MonState, start_resource_monitoring (start_resource_monitoring st) =
      start_resource_monitoring st) := by
  constructor
  · decide
  · intro st
    by_cases h : st.monitoring <;> simp [start_resource_monitoring, h]

/-- Concrete instantiation of `no_mutual_exclusion`. -/
theorem no_mutual_exclusion_witness :
    ([ExtAction.spawnStart, ExtAction.spawnStart] ∈ startStartSchedules) ∧
    maxStartsInFlight [ExtAction.spawnStart, ExtAction.spawnStart] = 2 ∧
    start_resource_monitoring (start_resource_monitoring ⟨false, 0⟩) =
      start_resource_monitoring ⟨false, 0⟩ :=
  ⟨by decide, no_mutual_exclusion.1 _ (by decide),
    no_mutual_exclusion.2 ⟨false, 0⟩⟩

/-- Concrete instantiation of `monitor_tick_spec`. -/
theorem monitor_tick_spec_witness :
    monitor_tick false c10EnvFail [] 0 = ([], []) ∧
    monitorIntervalSeconds = 3 :=
  ⟨(monitor_tick_spec c10EnvFail [] 0).1, (monitor_tick_spec c10EnvFail [] 0).2.2.2⟩

/-- Concrete instantiation of `settings_roundtrip`. -/
theorem settings_roundtrip_witness :
    get_setting "auto_start" (set_setting "auto_start" "1" []) = some "1" :=
  settings_roundtrip.1 [] "auto_start" "1"
